import Mathlib

/-!
# Verification of the Fabric core: message codec and state engine

A shallow embedding of `src/types/message.js` (the `Message` wire codec:
construction, the `data`/`type` accessors, `sign`, `verify`, `asRaw`,
`fromRaw`) and of `src/types/state.js` (the `State` container: construction,
`serialize`, `fingerprint`, `fork`, `get`, `commit`), together with theorems
settling the frozen claims about them.

Byte buffers are modelled as `List Nat` (each entry a byte value `< 256`),
JavaScript strings as Lean `String` (sequences of Unicode scalar values, which
is what Node observes after any `Buffer` round trip).  SHA-256 is implemented
concretely (FIPS 180-4) so digests compute.  Node's lossy
`buffer.toString('utf8')` conversion — which the `data` setter applies before
hashing — is modelled by an executable WHATWG-style UTF-8 decoder with
U+FFFD replacement, followed by re-encoding.
-/

namespace Fabric

set_option maxRecDepth 8000

/-! ## Generic byte-list helpers -/

/-- Association-list lookup, modelling JavaScript property lookup
`obj[key]` on plain objects (first binding wins; later `Object.assign`
overwrites are modelled separately). -/
def alookup {β : Type} (key : String) : List (String × β) → Option β
  | [] => none
  | (k, v) :: rest => if k = key then some v else alookup key rest

/-- `dst.write(src)` on a Node buffer: overwrites the first
`min dst.length src.length` bytes of `dst` with `src`, truncating `src` at the
end of `dst` and keeping any remaining tail of `dst`. -/
def writeBytes (dst src : List Nat) : List Nat :=
  src.take dst.length ++ dst.drop src.length

/-- `buffer.slice(a, b)` on a Node buffer: the bytes at indices
`[a, b)`, clamped to the buffer's length. -/
def bslice (l : List Nat) (a b : Nat) : List Nat :=
  (l.take b).drop a

/-- Big-endian 4-byte encoding of a natural number `< 2^32`; this is the
effect of `buf.write(padDigits(n.toString(16), 8), 'hex')` on a 4-byte
buffer (`padDigits` left-pads the hex string to 8 digits). -/
def be4 (n : Nat) : List Nat :=
  [n / 16777216 % 256, n / 65536 % 256, n / 256 % 256, n % 256]

/-- Big-endian 8-byte encoding (used by the SHA-256 length padding). -/
def be8 (n : Nat) : List Nat :=
  [n / 2 ^ 56 % 256, n / 2 ^ 48 % 256, n / 2 ^ 40 % 256, n / 2 ^ 32 % 256,
   n / 2 ^ 24 % 256, n / 2 ^ 16 % 256, n / 2 ^ 8 % 256, n % 256]



/-! ## SHA-256 (FIPS 180-4), executable over byte lists -/

/-- Right rotation of a 32-bit word (input assumed `< 2^32`). -/
def rotr32 (n x : Nat) : Nat :=
  x / 2 ^ n + x % 2 ^ n * 2 ^ (32 - n)

/-- SHA-256 small sigma 0. -/
def ssig0 (x : Nat) : Nat := rotr32 7 x ^^^ rotr32 18 x ^^^ x / 2 ^ 3

/-- SHA-256 small sigma 1. -/
def ssig1 (x : Nat) : Nat := rotr32 17 x ^^^ rotr32 19 x ^^^ x / 2 ^ 10

/-- SHA-256 big sigma 0. -/
def bsig0 (x : Nat) : Nat := rotr32 2 x ^^^ rotr32 13 x ^^^ rotr32 22 x

/-- SHA-256 big sigma 1. -/
def bsig1 (x : Nat) : Nat := rotr32 6 x ^^^ rotr32 11 x ^^^ rotr32 25 x

/-- SHA-256 round constants. -/
def shaK : List Nat :=
  [1116352408, 1899447441, 3049323471, 3921009573, 961987163, 1508970993,
   2453635748, 2870763221, 3624381080, 310598401, 607225278, 1426881987,
   1925078388, 2162078206, 2614888103, 3248222580, 3835390401, 4022224774,
   264347078, 604807628, 770255983, 1249150122, 1555081692, 1996064986,
   2554220882, 2821834349, 2952996808, 3210313671, 3336571891, 3584528711,
   113926993, 338241895, 666307205, 773529912, 1294757372, 1396182291,
   1695183700, 1986661051, 2177026350, 2456956037, 2730485921, 2820302411,
   3259730800, 3345764771, 3516065817, 3600352804, 4094571909, 275423344,
   430227734, 506948616, 659060556, 883997877, 958139571, 1322822218,
   1537002063, 1747873779, 1955562222, 2024104815, 2227730452, 2361852424,
   2428436474, 2756734187, 3204031479, 3329325298]

/-- SHA-256 working state: eight 32-bit words. -/
structure Sha8 where
  a : Nat
  b : Nat
  c : Nat
  d : Nat
  e : Nat
  f : Nat
  g : Nat
  h : Nat
deriving Repr, DecidableEq

/-- SHA-256 initial hash value. -/
def shaH0 : Sha8 :=
  ⟨1779033703, 3144134277, 1013904242, 2773480762, 1359893119, 2600822924, 528734635, 1541459225⟩

/-- One SHA-256 compression round with round word `kw = k + w`. -/
def shaRound (st : Sha8) (kw : Nat) : Sha8 :=
  let t1 := (st.h + bsig1 st.e + ((st.e &&& st.f) ^^^ ((2 ^ 32 - 1 - st.e) &&& st.g)) + kw) % 2 ^ 32
  let t2 := (bsig0 st.a + ((st.a &&& st.b) ^^^ (st.a &&& st.c) ^^^ (st.b &&& st.c))) % 2 ^ 32
  ⟨(t1 + t2) % 2 ^ 32, st.a, st.b, st.c, (st.d + t1) % 2 ^ 32, st.e, st.f, st.g⟩

/-- Group a byte list into big-endian 32-bit words. -/
def bytesToWords : List Nat → List Nat
  | b0 :: b1 :: b2 :: b3 :: rest =>
      (b0 * 2 ^ 24 + b1 * 2 ^ 16 + b2 * 2 ^ 8 + b3) :: bytesToWords rest
  | _ => []

/-- Extend the 16-word schedule by `n` further words.  The accumulator is
kept most-recent-first. -/
def shaExtend : List Nat → Nat → List Nat
  | wrev, 0 => wrev
  | wrev, n + 1 =>
      let w := (ssig1 (wrev.getD 1 0) + wrev.getD 6 0 + ssig0 (wrev.getD 14 0) + wrev.getD 15 0) % 2 ^ 32
      shaExtend (w :: wrev) n

/-- Process one 64-byte block. -/
def shaBlock (st : Sha8) (block : List Nat) : Sha8 :=
  let w := (shaExtend (bytesToWords block).reverse 48).reverse
  let kw := List.zipWith (fun k wi => (k + wi) % 2 ^ 32) shaK w
  let r := kw.foldl shaRound st
  ⟨(st.a + r.a) % 2 ^ 32, (st.b + r.b) % 2 ^ 32, (st.c + r.c) % 2 ^ 32, (st.d + r.d) % 2 ^ 32,
   (st.e + r.e) % 2 ^ 32, (st.f + r.f) % 2 ^ 32, (st.g + r.g) % 2 ^ 32, (st.h + r.h) % 2 ^ 32⟩

/-- Split a byte list into 64-byte blocks (fuel-indexed structural recursion
so that the kernel can evaluate it; the fuel is the list length, and each
step consumes at least one element). -/
def toBlocksF : Nat → List Nat → List (List Nat)
  | _, [] => []
  | 0, _ => []
  | n + 1, l => l.take 64 :: toBlocksF n (l.drop 64)

/-- Split a byte list into 64-byte blocks. -/
def toBlocks (l : List Nat) : List (List Nat) := toBlocksF l.length l

/-- SHA-256 padding: append `0x80`, zeros, and the 64-bit bit length. -/
def shaPad (msg : List Nat) : List Nat :=
  msg ++ 0x80 :: List.replicate ((64 - (msg.length + 9) % 64) % 64) 0 ++ be8 (msg.length * 8)

/-- SHA-256 digest of a byte list, as 32 bytes. -/
def sha256 (msg : List Nat) : List Nat :=
  let fin := (toBlocks (shaPad msg)).foldl shaBlock shaH0
  be4 fin.a ++ be4 fin.b ++ be4 fin.c ++ be4 fin.d ++ be4 fin.e ++ be4 fin.f ++ be4 fin.g ++ be4 fin.h

/-- Lowercase hex digit. -/
def hexDigit (n : Nat) : Char :=
  if n < 10 then Char.ofNat (48 + n) else Char.ofNat (87 + n)

/-- Lowercase hex encoding of a byte list (`buffer.toString('hex')` /
`hash.digest('hex')`). -/
def hexOfBytes (l : List Nat) : String :=
  String.mk (l.flatMap fun b => [hexDigit (b / 16), hexDigit (b % 16)])


/-! ## UTF-8

JavaScript strings are modelled as sequences of Unicode scalar values
(`List Nat`, each `Nat.isValidChar`): this is what Node observes after any
string→`Buffer` conversion.  `utf8Encode` models `Buffer.from(string)` and
`hash.update(string)` (both UTF-8 encode).  `utf8Dec` models
`buffer.toString('utf8')`: WHATWG decoding where every invalid byte or
truncated sequence yields U+FFFD — this conversion is *lossy* on bytes that
are not valid UTF-8, which is what makes the `data` setter's digest
computation diverge from the stored payload bytes. -/

/-- UTF-8 encoding of one Unicode scalar value. -/
def utf8EncodeChar (c : Nat) : List Nat :=
  if c < 0x80 then [c]
  else if c < 0x800 then [0xC0 + c / 64, 0x80 + c % 64]
  else if c < 0x10000 then [0xE0 + c / 4096, 0x80 + c / 64 % 64, 0x80 + c % 64]
  else [0xF0 + c / 262144, 0x80 + c / 4096 % 64, 0x80 + c / 64 % 64, 0x80 + c % 64]

/-- UTF-8 encoding of a scalar-value sequence. -/
def utf8Encode (s : List Nat) : List Nat := s.flatMap utf8EncodeChar

/-- A UTF-8 continuation byte. -/
def isCont (b : Nat) : Bool := 0x80 ≤ b && b < 0xC0

/-- Valid first-continuation ranges after a 3-byte lead (excludes overlong
forms after `0xE0` and surrogates after `0xED`). -/
def utf8Cont3 (b b1 : Nat) : Bool :=
  if b = 0xE0 then 0xA0 ≤ b1 && b1 < 0xC0
  else if b = 0xED then 0x80 ≤ b1 && b1 < 0xA0
  else isCont b1

/-- Valid first-continuation ranges after a 4-byte lead (excludes overlong
forms after `0xF0` and out-of-range planes after `0xF4`). -/
def utf8Cont4 (b b1 : Nat) : Bool :=
  if b = 0xF0 then 0x90 ≤ b1 && b1 < 0xC0
  else if b = 0xF4 then 0x80 ≤ b1 && b1 < 0x90
  else isCont b1

/-- WHATWG UTF-8 decoding with U+FFFD replacement, fuel-indexed (each step
consumes at least one byte, so fuel equal to the byte count suffices). -/
def utf8DecF : Nat → List Nat → List Nat
  | _, [] => []
  | 0, _ => []
  | n + 1, b :: rest =>
    if b < 0x80 then b :: utf8DecF n rest
    else if b < 0xC2 then 0xFFFD :: utf8DecF n rest
    else if b < 0xE0 then
      match rest with
      | [] => [0xFFFD]
      | b1 :: rest1 =>
        if isCont b1 then ((b - 0xC0) * 64 + (b1 - 0x80)) :: utf8DecF n rest1
        else 0xFFFD :: utf8DecF n rest
    else if b < 0xF0 then
      match rest with
      | [] => [0xFFFD]
      | b1 :: rest1 =>
        if utf8Cont3 b b1 then
          match rest1 with
          | [] => [0xFFFD]
          | b2 :: rest2 =>
            if isCont b2 then
              ((b - 0xE0) * 4096 + (b1 - 0x80) * 64 + (b2 - 0x80)) :: utf8DecF n rest2
            else 0xFFFD :: utf8DecF n rest1
        else 0xFFFD :: utf8DecF n rest
    else if b < 0xF5 then
      match rest with
      | [] => [0xFFFD]
      | b1 :: rest1 =>
        if utf8Cont4 b b1 then
          match rest1 with
          | [] => [0xFFFD]
          | b2 :: rest2 =>
            if isCont b2 then
              match rest2 with
              | [] => [0xFFFD]
              | b3 :: rest3 =>
                if isCont b3 then
                  ((b - 0xF0) * 262144 + (b1 - 0x80) * 4096 + (b2 - 0x80) * 64 + (b3 - 0x80)) ::
                    utf8DecF n rest3
                else 0xFFFD :: utf8DecF n rest2
            else 0xFFFD :: utf8DecF n rest1
        else 0xFFFD :: utf8DecF n rest
    else 0xFFFD :: utf8DecF n rest

/-- `buffer.toString('utf8')` as a scalar-value sequence. -/
def utf8Dec (l : List Nat) : List Nat := utf8DecF l.length l

/-- The bytes Node actually hashes when the `data` setter calls
`hash.update(value.toString('utf8'))` on a buffer `l`: decode with
replacement, then re-encode. -/
def utf8RoundTrip (l : List Nat) : List Nat := utf8Encode (utf8Dec l)


/-- The scalar values of a Lean string (JavaScript strings are modelled as
scalar sequences). -/
def strScalars (s : String) : List Nat := s.data.map Char.toNat

/-- UTF-8 bytes of a string: `Buffer.from(s)` / `hash.update(s)`. -/
def utf8Str (s : String) : List Nat := utf8Encode (strScalars s)


/-! ## Protocol constants and the closed type registry

`src/constants.js` and `src/functions/padDigits.js` are required by
`src/types/message.js` but are not under `src/`; their values are modelled
from the spec (§4.2, §6: magic constant, protocol version, 176-byte header,
fixed maximum message size, "closed enumeration of named message kinds, each
bound to a stable numeric code").  Nothing below depends on the particular
numeric values, only on the codes being nonzero (so that the setter's
falsiness test `!code` means "not registered") and pairwise distinct across
distinct kinds. -/

/-- Modelled from the spec: the 4 magic bytes written by the constructor
(`this.raw.magic.write(MAGIC_BYTES.toString(16), 'hex')`); the numeric value
of `MAGIC_BYTES` lives in `src/constants.js`, which is not under `src/`. -/
def MAGIC_BYTES_B : List Nat := [0xC0, 0xD3, 0xF3, 0x3D]

/-- Modelled from the spec: the 4 version bytes written by the constructor
(`padDigits(VERSION_NUMBER.toString(16), 8)` for protocol version 1). -/
def VERSION_B : List Nat := [0x00, 0x00, 0x00, 0x01]

/-- The fixed header size in bytes (spec §4.2 and the slice offsets of
`Message.fromRaw`/`parseRawMessage`). -/
def HEADER_SIZE : Nat := 176

/-- Modelled from the spec: the fixed maximum message size
(`src/constants.js` is not under `src/`; no code path below checks it, it
only scopes claims). -/
def MAX_MESSAGE_SIZE : Nat := 4096

/-- Modelled from the spec: numeric message type codes from
`src/constants.js` (not under `src/`), distinct and nonzero per §4.2/§6. -/
def GENERIC_MESSAGE_TYPE : Nat := 0xF0

/-- Modelled from the spec: numeric type code (see `GENERIC_MESSAGE_TYPE`). -/
def LOG_MESSAGE_TYPE : Nat := 0xF1

/-- Modelled from the spec: numeric type code (see `GENERIC_MESSAGE_TYPE`). -/
def GENERIC_LIST_TYPE : Nat := 0xF2

/-- Modelled from the spec: numeric type code (see `GENERIC_MESSAGE_TYPE`). -/
def P2P_GENERIC : Nat := 0x80

/-- Modelled from the spec: numeric type code (see `GENERIC_MESSAGE_TYPE`). -/
def OP_CYCLE : Nat := 0x81

/-- Modelled from the spec: numeric type code (see `GENERIC_MESSAGE_TYPE`). -/
def P2P_IDENT_REQUEST : Nat := 0x82

/-- Modelled from the spec: numeric type code (see `GENERIC_MESSAGE_TYPE`). -/
def P2P_IDENT_RESPONSE : Nat := 0x83

/-- Modelled from the spec: numeric type code (see `GENERIC_MESSAGE_TYPE`). -/
def P2P_CHAIN_SYNC_REQUEST : Nat := 0x84

/-- Modelled from the spec: numeric type code (see `GENERIC_MESSAGE_TYPE`). -/
def P2P_PING : Nat := 0x85

/-- Modelled from the spec: numeric type code (see `GENERIC_MESSAGE_TYPE`). -/
def P2P_PONG : Nat := 0x86

/-- Modelled from the spec: numeric type code (see `GENERIC_MESSAGE_TYPE`). -/
def DOCUMENT_REQUEST_TYPE : Nat := 0x87

/-- Modelled from the spec: numeric type code (see `GENERIC_MESSAGE_TYPE`). -/
def DOCUMENT_PUBLISH_TYPE : Nat := 0x88

/-- Modelled from the spec: numeric type code (see `GENERIC_MESSAGE_TYPE`). -/
def BLOCK_CANDIDATE : Nat := 0x89

/-- Modelled from the spec: numeric type code (see `GENERIC_MESSAGE_TYPE`). -/
def PEER_CANDIDATE : Nat := 0x8A

/-- Modelled from the spec: numeric type code (see `GENERIC_MESSAGE_TYPE`). -/
def P2P_INSTRUCTION : Nat := 0x8B

/-- Modelled from the spec: numeric type code (see `GENERIC_MESSAGE_TYPE`). -/
def P2P_BASE_MESSAGE : Nat := 0x8C

/-- Modelled from the spec: numeric type code (see `GENERIC_MESSAGE_TYPE`). -/
def SESSION_START : Nat := 0x8D

/-- Modelled from the spec: numeric type code (see `GENERIC_MESSAGE_TYPE`). -/
def CHAT_MESSAGE : Nat := 0x8E

/-- Modelled from the spec: numeric type code (see `GENERIC_MESSAGE_TYPE`). -/
def P2P_START_CHAIN : Nat := 0x8F

/-- Modelled from the spec: numeric type code (see `GENERIC_MESSAGE_TYPE`). -/
def P2P_STATE_ROOT : Nat := 0x90

/-- Modelled from the spec: numeric type code (see `GENERIC_MESSAGE_TYPE`). -/
def P2P_STATE_COMMITTMENT : Nat := 0x91

/-- Modelled from the spec: numeric type code (see `GENERIC_MESSAGE_TYPE`). -/
def P2P_STATE_CHANGE : Nat := 0x92

/-- Modelled from the spec: numeric type code (see `GENERIC_MESSAGE_TYPE`). -/
def P2P_STATE_REQUEST : Nat := 0x93

/-- Modelled from the spec: numeric type code (see `GENERIC_MESSAGE_TYPE`). -/
def P2P_TRANSACTION : Nat := 0x94

/-- Modelled from the spec: numeric type code (see `GENERIC_MESSAGE_TYPE`). -/
def P2P_CALL : Nat := 0x95

/-- Modelled from the spec: the code `parseInt((new Label('types/EthereumBlock'))._id, 16)`
(`src/types/label.js` is not under `src/`); a stable code distinct from the
constants above. -/
def TYPE_ETHEREUM_BLOCK : Nat := 0xE1

/-- Modelled from the spec: the code for `types/EthereumBlockNumber` (see
`TYPE_ETHEREUM_BLOCK`). -/
def TYPE_ETHEREUM_BLOCK_NUMBER : Nat := 0xE2

/-- The closed type registry: the `types` getter of `Message`, in source
order.  Several names alias one code exactly as in the source. -/
def typesList : List (String × Nat) :=
  [("GenericMessage", GENERIC_MESSAGE_TYPE),
   ("GenericLogMessage", LOG_MESSAGE_TYPE),
   ("GenericList", GENERIC_LIST_TYPE),
   ("GenericQueue", GENERIC_LIST_TYPE),
   ("FabricLogMessage", LOG_MESSAGE_TYPE),
   ("FabricServiceLogMessage", LOG_MESSAGE_TYPE),
   ("GenericTransferQueue", GENERIC_LIST_TYPE),
   ("Generic", P2P_GENERIC),
   ("Cycle", OP_CYCLE),
   ("IdentityRequest", P2P_IDENT_REQUEST),
   ("IdentityResponse", P2P_IDENT_RESPONSE),
   ("ChainSyncRequest", P2P_CHAIN_SYNC_REQUEST),
   ("Ping", P2P_PING),
   ("Pong", P2P_PONG),
   ("DocumentRequest", DOCUMENT_REQUEST_TYPE),
   ("DocumentPublish", DOCUMENT_PUBLISH_TYPE),
   ("BlockCandidate", BLOCK_CANDIDATE),
   ("PeerCandidate", PEER_CANDIDATE),
   ("PeerInstruction", P2P_INSTRUCTION),
   ("PeerMessage", P2P_BASE_MESSAGE),
   ("StartSession", SESSION_START),
   ("ChatMessage", CHAT_MESSAGE),
   ("StartChain", P2P_START_CHAIN),
   ("StateRoot", P2P_STATE_ROOT),
   ("StateCommitment", P2P_STATE_COMMITTMENT),
   ("StateChange", P2P_STATE_CHANGE),
   ("StateRequest", P2P_STATE_REQUEST),
   ("Transaction", P2P_TRANSACTION),
   ("Call", P2P_CALL),
   ("LogMessage", LOG_MESSAGE_TYPE),
   ("EthereumBlock", TYPE_ETHEREUM_BLOCK),
   ("EthereumBlockNumber", TYPE_ETHEREUM_BLOCK_NUMBER)]

/-- The `type` getter's `switch` over the numeric code, in source order; the
`default` branch yields the generic label. -/
def typeCodeLabel (code : Nat) : String :=
  if code = GENERIC_MESSAGE_TYPE then "GenericMessage"
  else if code = LOG_MESSAGE_TYPE then "GenericLogMessage"
  else if code = GENERIC_LIST_TYPE then "GenericList"
  else if code = DOCUMENT_PUBLISH_TYPE then "DocumentPublish"
  else if code = DOCUMENT_REQUEST_TYPE then "DocumentRequest"
  else if code = BLOCK_CANDIDATE then "BlockCandidate"
  else if code = OP_CYCLE then "Cycle"
  else if code = P2P_PING then "Ping"
  else if code = P2P_PONG then "Pong"
  else if code = P2P_GENERIC then "Generic"
  else if code = P2P_CHAIN_SYNC_REQUEST then "ChainSyncRequest"
  else if code = P2P_IDENT_REQUEST then "IdentityRequest"
  else if code = P2P_IDENT_RESPONSE then "IdentityResponse"
  else if code = P2P_BASE_MESSAGE then "PeerMessage"
  else if code = P2P_STATE_ROOT then "StateRoot"
  else if code = P2P_STATE_CHANGE then "StateChange"
  else if code = P2P_STATE_REQUEST then "StateRequest"
  else if code = P2P_TRANSACTION then "Transaction"
  else if code = P2P_CALL then "Call"
  else if code = PEER_CANDIDATE then "PeerCandidate"
  else if code = SESSION_START then "StartSession"
  else if code = CHAT_MESSAGE then "ChatMessage"
  else if code = P2P_START_CHAIN then "StartChain"
  else if code = TYPE_ETHEREUM_BLOCK then "EthereumBlock"
  else if code = TYPE_ETHEREUM_BLOCK_NUMBER then "EthereumBlockNumber"
  else "GenericMessage"

/-! ## The Message type (`src/types/message.js`) -/

/-- The `this.raw` record of a `Message`: fixed-width header buffers plus the
variable payload (`data` is `null` until assigned). -/
structure RawMsg where
  magic : List Nat
  version : List Nat
  parent : List Nat
  author : List Nat
  typeB : List Nat
  size : List Nat
  hash : List Nat
  signature : List Nat
  data : Option (List Nat)
deriving Repr, DecidableEq

/-- A `Message` instance: its `raw` record, whether `Object.freeze(this)` has
run (set by `sign`), and the `'@type'` own property written by the `type`
setter.  JavaScript's `Object.freeze` is shallow: it prevents writes to *own*
properties of the instance (such as `'@type'`), but not mutations of the
nested `raw` object — the embedding keeps `frozen` as data and lets each
mutator consult it exactly where the source would throw in strict mode. -/
structure Message where
  raw : RawMsg
  frozen : Bool
  atType : Option String
deriving Repr, DecidableEq

/-- A fresh `new Message()` with no `data`/`type` input: magic and version
written, all other header buffers zero-filled, `raw.data` null. -/
def newMessage : Message :=
  { raw := { magic := MAGIC_BYTES_B, version := VERSION_B,
             parent := List.replicate 32 0, author := List.replicate 32 0,
             typeB := List.replicate 4 0, size := List.replicate 4 0,
             hash := List.replicate 32 0, signature := List.replicate 64 0,
             data := none },
    frozen := false, atType := none }

/-- A JavaScript value assigned to `message.data`: a string or a Node
buffer.  (The constructor only ever assigns strings — non-string inputs go
through `JSON.stringify` first — but the public setter also accepts
buffers, e.g. from `fromRaw`.) -/
inductive JsData where
  | str (s : String)
  | buf (b : List Nat)
deriving Repr, DecidableEq

/-- The bytes stored by `this.raw.data = Buffer.from(value)`. -/
def dataBytes : JsData → List Nat
  | .str s => utf8Str s
  | .buf b => b

/-- The bytes hashed by
`crypto.createHash('sha256').update(value.toString('utf8'))`: for a string
this is its UTF-8 encoding, but for a buffer `value.toString('utf8')` is the
*lossy* decode-with-replacement, so the hashed bytes are the UTF-8 round
trip of the buffer — not necessarily the buffer itself. -/
def hashInputBytes : JsData → List Nat
  | .str s => utf8Str s
  | .buf b => utf8RoundTrip b

/-- The `data` setter (`Object.defineProperty(Message.prototype, 'data', …)`):
recomputes `raw.hash` from `value.toString('utf8')`, stores the payload
bytes, and writes the byte count into the 4-byte `raw.size` buffer.  It
mutates only the nested `raw` object, so it succeeds even on a frozen
(signed) instance.  (`if (!value) value = ''` only renames the empty string
to itself for the value shapes modelled here.) -/
def Message.setData (m : Message) (v : JsData) : Message :=
  { m with raw := { m.raw with
      hash := sha256 (hashInputBytes v),
      data := some (dataBytes v),
      size := writeBytes m.raw.size (be4 (dataBytes v).length) } }

/-- The `type` setter: resolve the name against the closed registry; an
unregistered name falls back to the generic code and emits a `'warning'`
(the returned `List String`).  The setter then assigns the own property
`this['@type']` — which throws a strict-mode `TypeError` on a frozen
instance (`Except.error`, carrying any warning already emitted) — and
writes the padded hex code into the 4-byte `raw.type` buffer.  (`!code` is
"not registered" because all modelled codes are nonzero.) -/
def Message.setType (m : Message) (v : String) : Except (List String) (Message × List String) :=
  let looked := alookup v typesList
  let warns := if looked.isNone then ["Unknown message type: " ++ v] else []
  let code := looked.getD GENERIC_MESSAGE_TYPE
  if m.frozen then .error warns
  else
    .ok ({ m with
           atType := some v,
           raw := { m.raw with typeB := writeBytes m.raw.typeB (be4 code) } }, warns)

/-- Big-endian value of a byte list
(`parseInt(buf.toString('hex'), 16)`). -/
def beNat (l : List Nat) : Nat := l.foldl (fun acc b => acc * 256 + b) 0

/-- The `type` getter: decode the stored 4-byte code through the `switch`. -/
def Message.typeLabel (m : Message) : String := typeCodeLabel (beNat m.raw.typeB)

/-- The `new Message(input)` constructor for an input `{type, data}` with a
string `data` (the only shape the claims exercise; non-strings are
`JSON.stringify`ed into strings first).  `if (input.data && input.type)`
requires both to be truthy — an *empty* `data` string (or empty type name)
skips both assignments, leaving `raw.data` null.  Returns the instance and
the warnings emitted by the type setter. -/
def mkMessage (input : Option (String × String)) : Message × List String :=
  match input with
  | none => (newMessage, [])
  | some (t, d) =>
    if d ≠ "" ∧ t ≠ "" then
      match newMessage.setType t with
      | .ok (m1, warns) => (m1.setData (.str d), warns)
      | .error warns => (newMessage, warns)
    else (newMessage, [])

/-- The `header` getter: the concatenation of the eight header buffers
(`Buffer.from(buf, 'hex')` on a buffer ignores the encoding and copies). -/
def Message.header (m : Message) : List Nat :=
  m.raw.magic ++ (m.raw.version ++ (m.raw.parent ++ (m.raw.author ++
    (m.raw.typeB ++ (m.raw.size ++ (m.raw.hash ++ m.raw.signature))))))

/-- `asRaw()`: `Buffer.concat([this.header, this.raw.data])`.  When
`raw.data` is null, `Buffer.concat` throws a `TypeError` (`none`). -/
def Message.asRaw (m : Message) : Option (List Nat) :=
  m.raw.data.map fun d => m.header ++ d

/-- `Message.fromRaw(input)` for a buffer input.  The guard
`if (input.length < HEADER_SIZE) return null` is *commented out* in the
source, so no length check happens: the header fields are sliced (clamped
slices for short inputs) and the assignment `message.data = input.slice(176)`
runs the `data` setter, which *overwrites* the sliced `hash` and `size`
fields with freshly computed values.  (`if (!input) return null` only
rejects `null`/`undefined`; even an empty buffer is truthy.) -/
def fromRaw (input : List Nat) : Message :=
  let m := { newMessage with raw :=
    { magic := bslice input 0 4, version := bslice input 4 8,
      parent := bslice input 8 40, author := bslice input 40 72,
      typeB := bslice input 72 76, size := bslice input 76 80,
      hash := bslice input 80 112, signature := bslice input 112 176,
      data := none } }
  m.setData (.buf (input.drop 176))

/-- The signer capability (spec §6): a public key and `sign(hash)`. -/
structure Signer where
  pubkey : List Nat
  sign : List Nat → List Nat

/-- `sign()`: hash the payload, obtain the signature from the signer, write
the public key and signature into the header buffers, then
`Object.freeze(this)`.  Throws (`none`) when `raw.data` is null (the hash
update would reject it). -/
def Message.sign (m : Message) (signer : Signer) : Option Message :=
  m.raw.data.map fun d =>
    let h := sha256 d
    { m with
      raw := { m.raw with
               author := writeBytes m.raw.author signer.pubkey,
               signature := writeBytes m.raw.signature (signer.sign h) },
      frozen := true }

/-- The three observable outcomes of `verify()` in the source: digest
mismatch returns `false`; a rejecting verifier throws
`new Error('Did not verify.')`; success returns `true`. -/
inductive VerifyResult where
  | tamperedFalse
  | sigException
  | verifiedTrue
deriving Repr, DecidableEq

/-- `verify()`: recompute the payload digest; on mismatch with the stored
`raw.hash`, return the tamper outcome *without* consulting the verifier;
otherwise delegate to the verifier capability (`this.signer.verify(author,
hash, signature)`, spec §6) and throw on rejection.  The returned `Bool`
records whether the verifier was invoked.  `none` when `raw.data` is null.
(The source compares hex strings of the digests, which coincides with byte
equality.) -/
def Message.verify (m : Message)
    (verifier : List Nat → List Nat → List Nat → Bool) :
    Option (VerifyResult × Bool) :=
  m.raw.data.map fun d =>
    let h := sha256 d
    if m.raw.hash ≠ h then (VerifyResult.tamperedFalse, false)
    else if verifier m.raw.author h m.raw.signature then (VerifyResult.verifiedTrue, true)
    else (VerifyResult.sigException, true)

/-! ## JSON values (`src/types/state.js` data model)

`State` data is arbitrary JSON-like data; plain objects are ordered field
lists (JavaScript objects preserve string-key insertion order).  Node
`Buffer`-shaped data does not occur in any claim and is not modelled. -/

/-- A JSON-like JavaScript value. -/
inductive JVal where
  | jnull
  | jbool (b : Bool)
  | jnum (n : Int)
  | jstr (s : String)
  | jarr (xs : List JVal)
  | jobj (fs : List (String × JVal))

/-- JavaScript truthiness of a `JVal` (`null`, `false`, `0` and `''` are
falsy; every object and array is truthy). -/
def jvTruthy : JVal → Bool
  | .jnull => false
  | .jbool b => b
  | .jnum n => n != 0
  | .jstr s => s ≠ ""
  | .jarr _ => true
  | .jobj _ => true


mutual

/-- Structural equality of two `JVal`s (what a deep compare such as
fast-json-patch's dirty check observes). -/
def jvBeq : JVal → JVal → Bool
  | .jnull, .jnull => true
  | .jbool a, .jbool b => a == b
  | .jnum a, .jnum b => a == b
  | .jstr a, .jstr b => a == b
  | .jarr a, .jarr b => jvBeqList a b
  | .jobj a, .jobj b => jvBeqFields a b
  | _, _ => false

def jvBeqList : List JVal → List JVal → Bool
  | [], [] => true
  | a :: as_, b :: bs => jvBeq a b && jvBeqList as_ bs
  | _, _ => false

def jvBeqFields : List (String × JVal) → List (String × JVal) → Bool
  | [], [] => true
  | (k, a) :: as_, (k', b) :: bs => k == k' && jvBeq a b && jvBeqFields as_ bs
  | _, _ => false

end

/-- One escaped character of `JSON.stringify`'s string encoding. -/
def jsonEscapeChar (c : Char) : List Char :=
  if c = '"' then ['\\', '"']
  else if c = '\\' then ['\\', '\\']
  else if c = '\n' then ['\\', 'n']
  else if c = '\t' then ['\\', 't']
  else if c = '\r' then ['\\', 'r']
  else if c.toNat = 8 then ['\\', 'b']
  else if c.toNat = 12 then ['\\', 'f']
  else if c.toNat < 0x20 then
    ['\\', 'u', '0', '0', hexDigit (c.toNat / 16), hexDigit (c.toNat % 16)]
  else [c]

/-- `JSON.stringify`'s double-quoted string encoding. -/
def jsonQuote (s : String) : String :=
  "\"" ++ String.mk (s.data.flatMap jsonEscapeChar) ++ "\""


mutual

/-- `JSON.stringify`, with object fields in insertion order. -/
def jsonStringify : JVal → String
  | .jnull => "null"
  | .jbool b => if b then "true" else "false"
  | .jnum n => toString n
  | .jstr s => jsonQuote s
  | .jarr xs => "[" ++ String.intercalate "," (jsonStringifyList xs) ++ "]"
  | .jobj fs => "\x7b" ++ String.intercalate "," (jsonStringifyFields fs) ++ "\x7d"

def jsonStringifyList : List JVal → List String
  | [] => []
  | v :: vs => jsonStringify v :: jsonStringifyList vs

def jsonStringifyFields : List (String × JVal) → List String
  | [] => []
  | (k, v) :: fs => (jsonQuote k ++ ":" ++ jsonStringify v) :: jsonStringifyFields fs

end


mutual

/-- Nesting depth of a value (used only as recursion fuel for the
`'@data'`-unwrapping of `serialize`, which descends strictly). -/
def jdepth : JVal → Nat
  | .jarr xs => jdepthList xs + 1
  | .jobj fs => jdepthFields fs + 1
  | _ => 1

def jdepthList : List JVal → Nat
  | [] => 0
  | v :: vs => max (jdepth v) (jdepthList vs)

def jdepthFields : List (String × JVal) → Nat
  | [] => 0
  | (_, v) :: fs => max (jdepth v) (jdepthFields fs)

end

/-- `State.prototype.serialize(input)` for a truthy `input` (the falsy
fallback to `this['@data']` is handled at the call sites).  Strings and
arrays encode as `Buffer.from(JSON.stringify(input))`; an object carrying
truthy `'@type'` and `'@data'` fields recursively serializes its `'@data'`;
any other object (and a boolean) encodes as
`Buffer.from(JSON.stringify(input))`.  NOTE: the "strip special fields" loop
in the source (state.js lines 330–338) builds a stripped copy named `state`
that is *never returned* — `result` is the `JSON.stringify` of the full
input, `'@'`-prefixed fields included — so no stripping is modelled.  A
number reaches the switch's default branch, where
`input.toString('utf8')` throws a `RangeError` (`none`).  `jnull` cannot
reach this function (callers replace falsy inputs). -/
def serializeValF : Nat → JVal → Option (List Nat)
  | 0, _ => none
  | fuel + 1, input =>
    match input with
    | .jstr _ => some (utf8Str (jsonStringify input))
    | .jarr _ => some (utf8Str (jsonStringify input))
    | .jobj fs =>
      match alookup "@type" fs, alookup "@data" fs with
      | some t, some d =>
        if jvTruthy t && jvTruthy d then serializeValF fuel d
        else some (utf8Str (jsonStringify input))
      | _, _ => some (utf8Str (jsonStringify input))
    | .jbool _ => some (utf8Str (jsonStringify input))
    | .jnum _ => none
    | .jnull => none

/-- `serialize` on a truthy value, with fuel derived from the value's depth
(the `'@data'` unwrap chain descends strictly, so depth fuel suffices). -/
def serializeVal (v : JVal) : Option (List Nat) := serializeValF (jdepth v) v

/-! ## JSON pointers (the `json-pointer` dependency) -/

/-- Split a character list at `'/'` (JavaScript `String.prototype.split`). -/
def splitSlash : List Char → List (List Char)
  | [] => [[]]
  | c :: rest =>
    let r := splitSlash rest
    if c = '/' then [] :: r
    else
      match r with
      | t :: ts => (c :: t) :: ts
      | [] => [[c]]

/-- Unescape one pointer token (`~1` → `/`, `~0` → `~`). -/
def unescapeTok : List Char → List Char
  | '~' :: '1' :: rest => '/' :: unescapeTok rest
  | '~' :: '0' :: rest => '~' :: unescapeTok rest
  | c :: rest => c :: unescapeTok rest
  | [] => []

/-- `json-pointer`'s `api.parse`: the empty pointer has no tokens; a pointer
not starting with `'/'` throws (`none`); otherwise split on `'/'`, drop the
leading empty segment, and unescape each token. -/
def ptrParse (p : String) : Option (List String) :=
  if p = "" then some []
  else
    match p.data with
    | '/' :: _ => some (((splitSlash p.data).drop 1).map fun t => String.mk (unescapeTok t))
    | _ => none

/-- Digits-only array index (canonical JavaScript array keys). -/
def parseIndex (s : String) : Option Nat :=
  if s ≠ "" ∧ s.data.all Char.isDigit then
    some (s.data.foldl (fun acc c => acc * 10 + (c.toNat - 48)) 0)
  else none

/-- `json-pointer`'s `api.get` walk: each token must exist in the current
object (`tok in obj`), else it throws (`none`).  On arrays, canonical index
keys and `'length'` exist; on non-objects every lookup throws. -/
def pget : JVal → List String → Option JVal
  | v, [] => some v
  | v, tok :: rest =>
    match v with
    | .jobj fields =>
      match alookup tok fields with
      | some v' => pget v' rest
      | none => none
    | .jarr xs =>
      if tok = "length" then pget (.jnum (Int.ofNat xs.length)) rest
      else
        match parseIndex tok with
        | some i =>
          match xs.get? i with
          | some v' => pget v' rest
          | none => none
        | none => none
    | _ => none

/-! ## Patch operations and the State engine -/

/-- Modelled from the spec (§4.3, §9; the diff engine is the external
`fast-json-patch` dependency): an ordered patch operation — add / replace /
remove, each carrying a pointer path and, where applicable, a value. -/
inductive PatchOp where
  | add (path : String) (v : JVal)
  | replace (path : String) (v : JVal)
  | remove (path : String)


mutual

/-- Modelled from the spec (§4.3, §9): the structural diff between the
last-observed snapshot and the current data, as computed by the observer's
`generate` call.  Object fields diff per key (removed, then changed —
recursively — then added); any other changed value becomes a whole-value
`replace` at its path. -/
def jsonDiff : JVal → JVal → String → List PatchOp
  | .jobj fo, .jobj fn, path =>
      (fo.filterMap fun kv =>
        if (alookup kv.1 fn).isNone then some (.remove (path ++ "/" ++ kv.1)) else none) ++
      jsonDiffChanged fo fn path ++
      (fn.filterMap fun kv =>
        if (alookup kv.1 fo).isNone then some (.add (path ++ "/" ++ kv.1) kv.2) else none)
  | old, new, path => if jvBeq old new then [] else [.replace path new]

def jsonDiffChanged : List (String × JVal) → List (String × JVal) → String → List PatchOp
  | [], _, _ => []
  | (k, v) :: rest, fn, path =>
      (match alookup k fn with
       | some v' => jsonDiff v v' (path ++ "/" ++ k)
       | none => []) ++ jsonDiffChanged rest fn path

end

/-- The events a `commit` can emit, in order: the raw ordered diff
(`'changes'`), the state snapshot (`'state'`, whose payload
`this['@state']` is undefined in the source), and the Transaction-typed
envelope (`'message'`) carrying the change set. -/
inductive EmitEv where
  | changesEv (ops : List PatchOp)
  | stateEv
  | messageEv (ops : List PatchOp)

/-- A `State` instance (`src/types/state.js`).  `baseline` is the
fast-json-patch observer's mirror (synced at construction and at each
`generate`); `hasObserver` records whether `monitor.observe` succeeded
(objects and arrays only — `if (this['@entity']['@data'])` plus
`observe` itself).  The remaining fields are the instance properties of the
same names. -/
structure StateT where
  atData : JVal
  entityType : JVal
  entityData : JVal
  clock : Nat
  baseline : JVal
  hasObserver : Bool
  changes : Option (List PatchOp)
  parent : Option String
  preimage : Option (List Nat)
  atId : Option String
  link : Option String

/-- `new State(data)`: `this['@data'] = data || {}`; classify by shape.  A
string re-enters as its character-code array; an array keeps the original
`data` as entity data; an object carrying truthy `'@type'`/`'@data'` fields
unwraps one envelope level; anything else is `'Object'` with the *original*
`data` argument as entity data (the source's else branch assigns `data`,
not `this['@data']`).  (A string's `.split('').map(charCodeAt)` yields
UTF-16 code units; the claims never construct states from strings with
astral characters, and modelled strings are scalar sequences.)
`this.link` computes a fingerprint at construction; a `none` there
corresponds to a construction-time throw, which no claim input reaches. -/
def newState (data : JVal) : StateT :=
  let atData := if jvTruthy data then data else .jobj []
  let (etype, edata) :=
    match atData with
    | .jstr s => (JVal.jstr "String", JVal.jarr ((strScalars s).map fun c => JVal.jnum (Int.ofNat c)))
    | .jarr _ => (JVal.jstr "Array", data)
    | .jobj fs =>
      match alookup "@type" fs, alookup "@data" fs with
      | some t, some d =>
        if jvTruthy t && jvTruthy d then (t, d) else (JVal.jstr "Object", data)
      | _, _ => (JVal.jstr "Object", data)
    | _ => (JVal.jstr "Object", data)
  let hasObs :=
    match edata with
    | .jobj _ => true
    | .jarr _ => true
    | _ => false
  { atData := atData, entityType := etype, entityData := edata,
    clock := 0, baseline := edata, hasObserver := hasObs,
    changes := none, parent := none, preimage := none, atId := none,
    link := (serializeVal (if jvTruthy edata then edata else atData)).map
      fun bytes => "/entities/" ++ hexOfBytes (sha256 bytes) }

/-- `fingerprint()`: SHA-256 (hex, lowercase) of
`this.serialize(this['@entity']['@data'])` — with `serialize`'s falsy
fallback to `this['@data']`.  `none` models a serialization throw. -/
def StateT.fingerprint (s : StateT) : Option String :=
  (serializeVal (if jvTruthy s.entityData then s.entityData else s.atData)).map
    fun bytes => hexOfBytes (sha256 bytes)

/-- The `id` getter: `this.fingerprint()`. -/
def StateT.id (s : StateT) : Option String := s.fingerprint

/-- `Object.assign(base, src)` on ordered field lists: each source field
overwrites an existing same-named field in place, otherwise appends. -/
def objAssign (base src : List (String × JVal)) : List (String × JVal) :=
  src.foldl (fun acc kv =>
    if (alookup kv.1 acc).isSome then
      acc.map fun kv' => (kv'.1, if kv'.1 = kv.1 then kv.2 else kv'.2)
    else acc ++ [kv]) base

/-- `fork()`: a new `State` seeded from
`Object.assign({'@parent': this.id}, this['@data'])`.  For object data the
source fields are merged over the seed (same-named fields *overwrite* the
explicit `'@parent'`); `Object.assign` with a non-object source contributes
no fields (a string source would contribute index keys — not modelled, no
claim exercises it).  `none` models a fingerprint throw. -/
def StateT.fork (s : StateT) : Option StateT :=
  s.id.map fun idv =>
    let seed := [("@parent", JVal.jstr idv)]
    match s.atData with
    | .jobj fields => newState (.jobj (objAssign seed fields))
    | _ => newState (.jobj seed)

/-- `get(path)`: `pointer.get(this['@entity']['@data'], path)` inside
`try`/`catch`.  On success return the value.  On a throw, the catch handler
itself evaluates `pointer.get(this['@entity']['@data'], '/')` as a
`console.error` argument — a lookup of the key `''` — which *throws out of
the handler* whenever that key is absent; only if it succeeds does `get`
return the initial `null`. -/
def StateT.get (s : StateT) (path : String) : Except String JVal :=
  let direct :=
    match ptrParse path with
    | some toks => pget s.entityData toks
    | none => none
  match direct with
  | some v => .ok v
  | none =>
    match pget s.entityData [""] with
    | some _ => .ok .jnull
    | none => .error "Invalid reference token"

/-- `commit()`: increment the clock; record `'@parent'`/`'@preimage'`
(`this.id` and `this.toString()` — `none` from either models the
corresponding throw, after which nothing is emitted); if the observer
exists, regenerate `'@changes'` against the mirror (which syncs); then, if
`'@changes'` is non-empty, emit `'changes'`, `'state'` and the
Transaction-typed `'message'` in order. -/
def StateT.commit (s : StateT) : Option (StateT × List EmitEv) :=
  match s.id, serializeVal s.atData with
  | some idv, some pre =>
    let changes' := if s.hasObserver then some (jsonDiff s.baseline s.entityData "") else s.changes
    let emits :=
      match changes' with
      | some ops => if ops.isEmpty then [] else [EmitEv.changesEv ops, EmitEv.stateEv, EmitEv.messageEv ops]
      | none => []
    some ({ s with
            clock := s.clock + 1,
            parent := some idv,
            preimage := some pre,
            changes := changes',
            baseline := if s.hasObserver then s.entityData else s.baseline,
            atId := some idv }, emits)
  | _, _ => none

/-- Well-formed JSON values: object keys are duplicate-free at every level
(JavaScript objects cannot carry duplicate keys, but association lists
can; every value reachable from a real `State` satisfies this). -/
inductive JWF : JVal → Prop
  | jnull : JWF .jnull
  | jbool (b : Bool) : JWF (.jbool b)
  | jnum (n : Int) : JWF (.jnum n)
  | jstr (s : String) : JWF (.jstr s)
  | jarr (xs : List JVal) (h : ∀ v ∈ xs, JWF v) : JWF (.jarr xs)
  | jobj (fs : List (String × JVal)) (hnd : (fs.map Prod.fst).Nodup)
      (h : ∀ p ∈ fs, JWF p.2) : JWF (.jobj fs)

/-! ## Basic lemmas about the byte helpers -/

theorem be4_length (n : Nat) : (be4 n).length = 4 := rfl

theorem writeBytes_full (dst src : List Nat) (h : dst.length = src.length) :
    writeBytes dst src = src := by
  simp [writeBytes, h, List.take_of_length_le, List.drop_eq_nil_of_le, Nat.le_refl]

theorem writeBytes_be4 (dst : List Nat) (n : Nat) (h : dst.length = 4) :
    writeBytes dst (be4 n) = be4 n :=
  writeBytes_full dst (be4 n) (by simp [h, be4_length])

theorem sha256_length (msg : List Nat) : (sha256 msg).length = 32 := by
  simp [sha256, be4]

theorem take_app {α : Type} (l r : List α) (n : Nat) (h : l.length = n) :
    (l ++ r).take n = l := by
  subst h
  simp [List.take_append_eq_append_take]

theorem drop_app {α : Type} (l r : List α) (n : Nat) (h : l.length = n) :
    (l ++ r).drop n = r := by
  subst h
  simp [List.drop_append_eq_append_drop]

theorem bslice_first (x r : List Nat) (n : Nat) (h : x.length = n) :
    bslice (x ++ r) 0 n = x := by
  simp [bslice, take_app x r n h]

theorem bslice_shift (x r : List Nat) (a b : Nat) (ha : x.length ≤ a) (hb : x.length ≤ b) :
    bslice (x ++ r) a b = bslice r (a - x.length) (b - x.length) := by
  simp only [bslice, List.take_append_eq_append_take, List.take_of_length_le hb,
    List.drop_append_eq_append_drop, List.drop_eq_nil_of_le ha, List.nil_append]

theorem bslice_length (l : List Nat) (a b : Nat) (hb : b ≤ l.length) (hab : a ≤ b) :
    (bslice l a b).length = b - a := by
  simp [bslice]
  omega

/-! ## SHA-256 test vectors -/

/-- FIPS 180-4 test vector: `SHA-256("") =
e3b0c44298fc1c149afbf4c8996fb92427ae41e4649b934ca495991b7852b855`. -/
theorem sha256_nil :
    hexOfBytes (sha256 []) =
      "e3b0c44298fc1c149afbf4c8996fb92427ae41e4649b934ca495991b7852b855" := by
  decide

/-- FIPS 180-4 test vector: `SHA-256("abc")`. -/
theorem sha256_abc :
    hexOfBytes (sha256 [0x61, 0x62, 0x63]) =
      "ba7816bf8f01cfea414140de5dae2223b00361a396177a9cb410ff61f20015ad" := by
  decide

/-! ## UTF-8 round-trip lemmas -/

theorem utf8EncodeChar_length_pos (c : Nat) : 0 < (utf8EncodeChar c).length := by
  unfold utf8EncodeChar
  split <;> simp_all
  split <;> simp_all
  split <;> simp_all

/-- Decoding inverts encoding on valid scalar sequences, for any sufficient
fuel. -/
theorem utf8DecF_encode (s : List Nat) :
    ∀ fuel, (∀ c ∈ s, Nat.isValidChar c) → (utf8Encode s).length ≤ fuel →
      utf8DecF fuel (utf8Encode s) = s := by
  induction s with
  | nil => intro fuel _ _; simp [utf8Encode]; cases fuel <;> rfl
  | cons c cs ih =>
    intro fuel hv hlen
    have hvc : Nat.isValidChar c := hv c (by simp)
    have hvcs : ∀ x ∈ cs, Nat.isValidChar x := fun x hx => hv x (by simp [hx])
    have henc : utf8Encode (c :: cs) = utf8EncodeChar c ++ utf8Encode cs := by
      simp [utf8Encode]
    rw [henc] at hlen ⊢
    have hrange : c < 0x110000 := by
      rcases hvc with h | ⟨_, h⟩ <;> omega
    by_cases h1 : c < 0x80
    · -- 1-byte form
      have hec : utf8EncodeChar c = [c] := by simp [utf8EncodeChar, h1]
      rw [hec] at hlen ⊢
      obtain ⟨n, rfl⟩ : ∃ n, fuel = n + 1 := by
        cases fuel with
        | zero => simp at hlen
        | succ n => exact ⟨n, rfl⟩
      simp only [List.append_eq, List.singleton_append, List.cons_append, List.nil_append,
        utf8DecF, if_pos h1]
      rw [ih n hvcs (by simp at hlen; omega)]
    · by_cases h2 : c < 0x800
      · -- 2-byte form
        have hec : utf8EncodeChar c = [0xC0 + c / 64, 0x80 + c % 64] := by
          simp [utf8EncodeChar, h1, h2]
        rw [hec] at hlen ⊢
        obtain ⟨n, rfl⟩ : ∃ n, fuel = n + 1 := by
          cases fuel with
          | zero => simp at hlen
          | succ n => exact ⟨n, rfl⟩
        have c1 : ¬(0xC0 + c / 64 < 0x80) := by omega
        have c2 : ¬(0xC0 + c / 64 < 0xC2) := by omega
        have c3 : 0xC0 + c / 64 < 0xE0 := by omega
        have c4 : isCont (0x80 + c % 64) = true := by
          simp only [isCont, Bool.and_eq_true, decide_eq_true_eq]; omega
        simp only [List.append_eq, List.singleton_append, List.cons_append, List.nil_append,
          utf8DecF, if_neg c1, if_neg c2, if_pos c3, c4, if_pos]
        have hval : (0xC0 + c / 64 - 0xC0) * 64 + (0x80 + c % 64 - 0x80) = c := by omega
        rw [hval, ih n hvcs (by simp at hlen ⊢; omega)]
      · by_cases h3 : c < 0x10000
        · -- 3-byte form
          have hec : utf8EncodeChar c =
              [0xE0 + c / 4096, 0x80 + c / 64 % 64, 0x80 + c % 64] := by
            simp [utf8EncodeChar, h1, h2, h3]
          rw [hec] at hlen ⊢
          obtain ⟨n, rfl⟩ : ∃ n, fuel = n + 1 := by
            cases fuel with
            | zero => simp at hlen
            | succ n => exact ⟨n, rfl⟩
          have c1 : ¬(0xE0 + c / 4096 < 0x80) := by omega
          have c2 : ¬(0xE0 + c / 4096 < 0xC2) := by omega
          have c3 : ¬(0xE0 + c / 4096 < 0xE0) := by omega
          have c4 : 0xE0 + c / 4096 < 0xF0 := by omega
          have c5 : utf8Cont3 (0xE0 + c / 4096) (0x80 + c / 64 % 64) = true := by
            unfold utf8Cont3 isCont
            have hns : c < 0xD800 ∨ 0xDFFF < c := by
              rcases hvc with h | ⟨h, _⟩
              · exact Or.inl h
              · exact Or.inr h
            split
            · simp only [Bool.and_eq_true, decide_eq_true_eq]; omega
            · split
              · simp only [Bool.and_eq_true, decide_eq_true_eq]; omega
              · simp only [Bool.and_eq_true, decide_eq_true_eq]; omega
          have c6 : isCont (0x80 + c % 64) = true := by
            simp only [isCont, Bool.and_eq_true, decide_eq_true_eq]; omega
          simp only [List.append_eq, List.singleton_append, List.cons_append, List.nil_append,
            utf8DecF, if_neg c1, if_neg c2, if_neg c3, if_pos c4, c5, if_pos, c6]
          have hval : (0xE0 + c / 4096 - 0xE0) * 4096 + (0x80 + c / 64 % 64 - 0x80) * 64 +
              (0x80 + c % 64 - 0x80) = c := by omega
          rw [hval, ih n hvcs (by simp at hlen ⊢; omega)]
        · -- 4-byte form
          have hec : utf8EncodeChar c =
              [0xF0 + c / 262144, 0x80 + c / 4096 % 64, 0x80 + c / 64 % 64, 0x80 + c % 64] := by
            simp [utf8EncodeChar, h1, h2, h3]
          rw [hec] at hlen ⊢
          obtain ⟨n, rfl⟩ : ∃ n, fuel = n + 1 := by
            cases fuel with
            | zero => simp at hlen
            | succ n => exact ⟨n, rfl⟩
          have c1 : ¬(0xF0 + c / 262144 < 0x80) := by omega
          have c2 : ¬(0xF0 + c / 262144 < 0xC2) := by omega
          have c3 : ¬(0xF0 + c / 262144 < 0xE0) := by omega
          have c4 : ¬(0xF0 + c / 262144 < 0xF0) := by omega
          have c5 : 0xF0 + c / 262144 < 0xF5 := by omega
          have c6 : utf8Cont4 (0xF0 + c / 262144) (0x80 + c / 4096 % 64) = true := by
            unfold utf8Cont4 isCont
            split
            · simp only [Bool.and_eq_true, decide_eq_true_eq]; omega
            · split
              · simp only [Bool.and_eq_true, decide_eq_true_eq]; omega
              · simp only [Bool.and_eq_true, decide_eq_true_eq]; omega
          have c7 : isCont (0x80 + c / 4096 % 64) = true := by
            simp only [isCont, Bool.and_eq_true, decide_eq_true_eq]; omega
          have c8 : isCont (0x80 + c % 64) = true := by
            simp only [isCont, Bool.and_eq_true, decide_eq_true_eq]; omega
          have c9 : isCont (0x80 + c / 64 % 64) = true := by
            simp only [isCont, Bool.and_eq_true, decide_eq_true_eq]; omega
          simp only [List.append_eq, List.singleton_append, List.cons_append, List.nil_append,
            utf8DecF, if_neg c1, if_neg c2, if_neg c3, if_neg c4, if_pos c5, c6, if_pos, c7, c8,
            c9]
          have hval : (0xF0 + c / 262144 - 0xF0) * 262144 +
              (0x80 + c / 4096 % 64 - 0x80) * 4096 +
              (0x80 + c / 64 % 64 - 0x80) * 64 + (0x80 + c % 64 - 0x80) = c := by omega
          rw [hval, ih n hvcs (by simp at hlen ⊢; omega)]

/-- Decoding inverts encoding on valid scalar sequences. -/
theorem utf8Dec_encode (s : List Nat) (hv : ∀ c ∈ s, Nat.isValidChar c) :
    utf8Dec (utf8Encode s) = s :=
  utf8DecF_encode s (utf8Encode s).length hv (Nat.le_refl _)

/-- The lossy Node conversion is the identity on encodings of valid scalar
sequences. -/
theorem utf8RoundTrip_encode (s : List Nat) (hv : ∀ c ∈ s, Nat.isValidChar c) :
    utf8RoundTrip (utf8Encode s) = utf8Encode s := by
  simp [utf8RoundTrip, utf8Dec_encode s hv]

theorem strScalars_valid (s : String) : ∀ c ∈ strScalars s, Nat.isValidChar c := by
  intro c hc
  simp only [strScalars, List.mem_map] at hc
  obtain ⟨ch, _, rfl⟩ := hc
  exact ch.valid

/-- The lossy conversion is the identity on string encodings. -/
theorem utf8RoundTrip_str (s : String) : utf8RoundTrip (utf8Str s) = utf8Str s :=
  utf8RoundTrip_encode (strScalars s) (strScalars_valid s)

/-- The lossy conversion is *not* the identity on the single byte `0xFF`
(Node decodes it to U+FFFD and re-encodes that as three bytes). -/
theorem utf8RoundTrip_ff : utf8RoundTrip [0xFF] = [0xEF, 0xBF, 0xBD] := by decide

/-! ## Decoding an encoded message -/

/-- Slicing `fromRaw`'s input apart when it is a well-shaped header followed
by a payload: each header field of the source message is recovered by its
slice, and the `data`-setter reassignment overwrites `size` and `hash` with
recomputed values. -/
theorem fromRaw_append (m : Message) (d : List Nat)
    (h1 : m.raw.magic.length = 4) (h2 : m.raw.version.length = 4)
    (h3 : m.raw.parent.length = 32) (h4 : m.raw.author.length = 32)
    (h5 : m.raw.typeB.length = 4) (h6 : m.raw.size.length = 4)
    (h7 : m.raw.hash.length = 32) (h8 : m.raw.signature.length = 64) :
    fromRaw (m.header ++ d) =
      { raw := { magic := m.raw.magic, version := m.raw.version, parent := m.raw.parent,
                 author := m.raw.author, typeB := m.raw.typeB,
                 size := be4 d.length, hash := sha256 (utf8RoundTrip d),
                 signature := m.raw.signature, data := some d },
        frozen := false, atType := none } := by
  have hL : m.header =
      m.raw.magic ++ (m.raw.version ++ (m.raw.parent ++ (m.raw.author ++
        (m.raw.typeB ++ (m.raw.size ++ (m.raw.hash ++ m.raw.signature)))))) := rfl
  have happ : m.header ++ d =
      m.raw.magic ++ (m.raw.version ++ (m.raw.parent ++ (m.raw.author ++
        (m.raw.typeB ++ (m.raw.size ++ (m.raw.hash ++ (m.raw.signature ++ d))))))) := by
    rw [hL]
    simp [List.append_assoc]
  have hslice : ∀ a b : Nat, bslice (m.header ++ d) a b =
      bslice (m.raw.magic ++ (m.raw.version ++ (m.raw.parent ++ (m.raw.author ++
        (m.raw.typeB ++ (m.raw.size ++ (m.raw.hash ++ (m.raw.signature ++ d)))))))) a b := by
    intro a b; rw [happ]
  unfold fromRaw
  have e1 : bslice (m.header ++ d) 0 4 = m.raw.magic := by
    rw [hslice]; exact bslice_first _ _ _ h1
  have e2 : bslice (m.header ++ d) 4 8 = m.raw.version := by
    rw [hslice, bslice_shift _ _ _ _ (by omega) (by omega), h1]
    exact bslice_first _ _ _ h2
  have e3 : bslice (m.header ++ d) 8 40 = m.raw.parent := by
    rw [hslice, bslice_shift _ _ _ _ (by omega) (by omega), h1,
      bslice_shift _ _ _ _ (by omega) (by omega), h2]
    exact bslice_first _ _ _ h3
  have e4 : bslice (m.header ++ d) 40 72 = m.raw.author := by
    rw [hslice, bslice_shift _ _ _ _ (by omega) (by omega), h1,
      bslice_shift _ _ _ _ (by omega) (by omega), h2,
      bslice_shift _ _ _ _ (by omega) (by omega), h3]
    exact bslice_first _ _ _ h4
  have e5 : bslice (m.header ++ d) 72 76 = m.raw.typeB := by
    rw [hslice, bslice_shift _ _ _ _ (by omega) (by omega), h1,
      bslice_shift _ _ _ _ (by omega) (by omega), h2,
      bslice_shift _ _ _ _ (by omega) (by omega), h3,
      bslice_shift _ _ _ _ (by omega) (by omega), h4]
    exact bslice_first _ _ _ h5
  have e6 : bslice (m.header ++ d) 76 80 = m.raw.size := by
    rw [hslice, bslice_shift _ _ _ _ (by omega) (by omega), h1,
      bslice_shift _ _ _ _ (by omega) (by omega), h2,
      bslice_shift _ _ _ _ (by omega) (by omega), h3,
      bslice_shift _ _ _ _ (by omega) (by omega), h4,
      bslice_shift _ _ _ _ (by omega) (by omega), h5]
    exact bslice_first _ _ _ h6
  have e7 : bslice (m.header ++ d) 80 112 = m.raw.hash := by
    rw [hslice, bslice_shift _ _ _ _ (by omega) (by omega), h1,
      bslice_shift _ _ _ _ (by omega) (by omega), h2,
      bslice_shift _ _ _ _ (by omega) (by omega), h3,
      bslice_shift _ _ _ _ (by omega) (by omega), h4,
      bslice_shift _ _ _ _ (by omega) (by omega), h5,
      bslice_shift _ _ _ _ (by omega) (by omega), h6]
    exact bslice_first _ _ _ h7
  have e8 : bslice (m.header ++ d) 112 176 = m.raw.signature := by
    rw [hslice, bslice_shift _ _ _ _ (by omega) (by omega), h1,
      bslice_shift _ _ _ _ (by omega) (by omega), h2,
      bslice_shift _ _ _ _ (by omega) (by omega), h3,
      bslice_shift _ _ _ _ (by omega) (by omega), h4,
      bslice_shift _ _ _ _ (by omega) (by omega), h5,
      bslice_shift _ _ _ _ (by omega) (by omega), h6,
      bslice_shift _ _ _ _ (by omega) (by omega), h7]
    exact bslice_first _ _ _ h8
  have e9 : (m.header ++ d).drop 176 = d := by
    apply drop_app
    rw [hL]
    simp [h1, h2, h3, h4, h5, h6, h7, h8]
  rw [e1, e2, e3, e4, e5, e6, e7, e8, e9]
  simp only [Message.setData, dataBytes, hashInputBytes]
  congr 1
  · congr 1
    exact writeBytes_be4 _ _ h6

/-! ## Association-list lemmas -/

theorem alookup_isSome_of_mem {β : Type} (k : String) (v : β) (l : List (String × β))
    (h : (k, v) ∈ l) : (alookup k l).isSome = true := by
  induction l with
  | nil => simp at h
  | cons hd tl ih =>
    rcases List.mem_cons.mp h with heq | hmem
    · cases hd
      injection heq with h1 h2
      subst h1
      simp [alookup]
    · cases hd with
      | mk k' v' =>
        by_cases hk : k' = k
        · simp [alookup, hk]
        · simp only [alookup, if_neg hk]
          exact ih hmem

theorem alookup_eq_none_of_forall {β : Type} (k : String) (l : List (String × β))
    (h : ∀ p ∈ l, p.1 ≠ k) : alookup k l = none := by
  induction l with
  | nil => rfl
  | cons hd tl ih =>
    cases hd with
    | mk k' v' =>
      have hne : k' ≠ k := h (k', v') (by simp)
      simp only [alookup, if_neg hne]
      exact ih fun p hp => h p (by simp [hp])

theorem alookup_nodup_mem {β : Type} (k : String) (v : β) (l : List (String × β))
    (hnd : (l.map Prod.fst).Nodup) (h : (k, v) ∈ l) : alookup k l = some v := by
  induction l with
  | nil => simp at h
  | cons hd tl ih =>
    cases hd with
    | mk k' v' =>
      rcases List.mem_cons.mp h with heq | hmem
      · injection heq with h1 h2
        subst h1; subst h2
        simp [alookup]
      · have hne : k' ≠ k := by
          intro hk
          subst hk
          have : k' ∈ tl.map Prod.fst := List.mem_map.mpr ⟨(k', v), hmem, rfl⟩
          exact (List.nodup_cons.mp hnd).1 this
        simp only [alookup, if_neg hne]
        exact ih (List.nodup_cons.mp hnd).2 hmem

theorem alookup_append_of_some {β : Type} (k : String) (v : β) (l1 l2 : List (String × β))
    (h : alookup k l1 = some v) : alookup k (l1 ++ l2) = some v := by
  induction l1 with
  | nil => simp [alookup] at h
  | cons hd tl ih =>
    cases hd with
    | mk k' v' =>
      by_cases hk : k' = k
      · simp [alookup, hk] at h ⊢
        exact h
      · simp only [alookup, if_neg hk, List.cons_append] at h ⊢
        exact ih h

theorem alookup_append_of_none {β : Type} (k : String) (l1 l2 : List (String × β))
    (h : alookup k l1 = none) : alookup k (l1 ++ l2) = alookup k l2 := by
  induction l1 with
  | nil => rfl
  | cons hd tl ih =>
    cases hd with
    | mk k' v' =>
      by_cases hk : k' = k
      · simp [alookup, hk] at h
      · simp only [alookup, if_neg hk, List.cons_append] at h ⊢
        exact ih h

theorem alookup_map_replace (tgt k : String) (nv : JVal) (l : List (String × JVal))
    (hk : k ≠ tgt) :
    alookup tgt (l.map fun kv' => (kv'.1, if kv'.1 = k then nv else kv'.2)) = alookup tgt l := by
  induction l with
  | nil => rfl
  | cons hd tl ih =>
    cases hd with
    | mk k' v' =>
      by_cases htgt : k' = tgt
      · subst htgt
        have hk' : ¬(k' = k) := fun h => hk (h ▸ rfl)
        simp [List.map_cons, alookup, hk']
      · simp only [List.map_cons, alookup, if_neg htgt]
        exact ih

/-- Merging fields whose keys all differ from `tgt` does not change the
binding of `tgt`. -/
theorem objAssign_alookup_preserved (tgt : String) (src : List (String × JVal)) :
    ∀ base, (∀ kv ∈ src, kv.1 ≠ tgt) →
      alookup tgt (objAssign base src) = alookup tgt base := by
  induction src with
  | nil => intro base _; rfl
  | cons hd tl ih =>
    intro base hne
    have hhd : hd.1 ≠ tgt := hne hd (by simp)
    have htl : ∀ kv ∈ tl, kv.1 ≠ tgt := fun kv hkv => hne kv (by simp [hkv])
    simp only [objAssign, List.foldl_cons]
    rw [show (List.foldl _ _ tl : List (String × JVal)) = objAssign _ tl from rfl, ih _ htl]
    by_cases hs : (alookup hd.1 base).isSome
    · simp only [if_pos hs]
      exact alookup_map_replace tgt hd.1 hd.2 base hhd
    · simp only [if_neg hs]
      cases hl : alookup tgt base with
      | some v => exact alookup_append_of_some tgt v base [hd] hl
      | none =>
        rw [alookup_append_of_none tgt base [hd] hl]
        simp [alookup, hhd]

/-! ## Structural-equality and diff lemmas -/

theorem jvBeq_refl (v : JVal) : jvBeq v v = true := by
  refine JVal.rec (motive_1 := fun v => jvBeq v v = true)
    (motive_2 := fun l => jvBeqList l l = true)
    (motive_3 := fun fs => jvBeqFields fs fs = true)
    (motive_4 := fun p => jvBeq p.2 p.2 = true)
    ?_ ?_ ?_ ?_ ?_ ?_ ?_ ?_ ?_ ?_ ?_ v
  · simp [jvBeq]
  · intro b; simp [jvBeq]
  · intro n; simp [jvBeq]
  · intro s; simp [jvBeq]
  · intro xs ih; simpa [jvBeq] using ih
  · intro fs ih; simpa [jvBeq] using ih
  · simp [jvBeqList]
  · intro h t ih1 ih2; simp [jvBeqList, ih1, ih2]
  · simp [jvBeqFields]
  · intro h t ih1 ih2
    cases h with
    | mk k v' => simp [jvBeqFields, ih1, ih2]
  · intro k v' ih; exact ih

/-- The snapshot diff of identical well-formed data is empty (no pending
change set when nothing was mutated). -/
theorem jsonDiff_refl (v : JVal) (hwf : JWF v) : ∀ path, jsonDiff v v path = [] := by
  induction hwf with
  | jnull => intro path; simp [jsonDiff, jvBeq]
  | jbool b => intro path; simp [jsonDiff, jvBeq_refl]
  | jnum n => intro path; simp [jsonDiff, jvBeq_refl]
  | jstr s => intro path; simp [jsonDiff, jvBeq_refl]
  | jarr xs h ih => intro path; simp [jsonDiff, jvBeq_refl]
  | jobj fs hnd h ih =>
    intro path
    have hrem : (fs.filterMap fun kv =>
        if (alookup kv.1 fs).isNone then some (PatchOp.remove (path ++ "/" ++ kv.1))
        else none) = [] := by
      rw [List.filterMap_eq_nil_iff]
      intro kv hkv
      obtain ⟨w, hw⟩ := Option.isSome_iff_exists.mp (alookup_isSome_of_mem kv.1 kv.2 fs hkv)
      simp [hw]
    have hadd : (fs.filterMap fun kv =>
        if (alookup kv.1 fs).isNone then some (PatchOp.add (path ++ "/" ++ kv.1) kv.2)
        else none) = [] := by
      rw [List.filterMap_eq_nil_iff]
      intro kv hkv
      obtain ⟨w, hw⟩ := Option.isSome_iff_exists.mp (alookup_isSome_of_mem kv.1 kv.2 fs hkv)
      simp [hw]
    have hch : ∀ gs, (∀ p ∈ gs, p ∈ fs) → jsonDiffChanged gs fs path = [] := by
      intro gs
      induction gs with
      | nil => intro _; rfl
      | cons hd tl ihg =>
        intro hsub
        cases hd with
        | mk k v' =>
          have hmem : (k, v') ∈ fs := hsub _ (by simp)
          have hv : ∀ p, jsonDiff v' v' p = [] := ih (k, v') hmem
          simp only [jsonDiffChanged, alookup_nodup_mem k v' fs hnd hmem, hv,
            ihg fun p hp => hsub p (by simp [hp]), List.nil_append]
    show (fs.filterMap _) ++ jsonDiffChanged fs fs path ++ (fs.filterMap _) = []
    rw [hrem, hadd, hch fs fun p hp => hp]
    rfl

/-! ## Claim C1 — encode/decode round trip -/

/-- C1 (counterexample): the claim quantifies over payloads of size at most
the maximum, which includes the empty payload — but `new Message({type:
'Ping', data: ''})` skips the truthiness-guarded assignments, leaving
`raw.data` null, so `asRaw()` throws (`none`) and `decode(encode(m))`
produces nothing at all, let alone an identical message. -/
theorem claim1_roundtrip_cex :
    (alookup "Ping" typesList).isSome = true ∧
    (utf8Str "").length ≤ MAX_MESSAGE_SIZE ∧
    (mkMessage (some ("Ping", ""))).1.asRaw = none := by
  decide

/-- C1 (amended: payloads of *nonzero* size up to the maximum): for every
registered type and every nonempty payload, decoding the encoded bytes
yields a message whose eight header fields and payload bytes are identical
to the original's.  (The payload is valid UTF-8 — it comes from a string —
so the decoder's recomputed digest and length coincide with the wire
fields.) -/
theorem claim1_roundtrip (t s : String)
    (hreg : (alookup t typesList).isSome = true)
    (hne : s ≠ "")
    (hmax : (utf8Str s).length ≤ MAX_MESSAGE_SIZE) :
    (mkMessage (some (t, s))).1.asRaw =
      some ((mkMessage (some (t, s))).1.header ++ utf8Str s) ∧
    ((fromRaw ((mkMessage (some (t, s))).1.header ++ utf8Str s)).raw.magic =
        (mkMessage (some (t, s))).1.raw.magic ∧
      (fromRaw ((mkMessage (some (t, s))).1.header ++ utf8Str s)).raw.version =
        (mkMessage (some (t, s))).1.raw.version ∧
      (fromRaw ((mkMessage (some (t, s))).1.header ++ utf8Str s)).raw.parent =
        (mkMessage (some (t, s))).1.raw.parent ∧
      (fromRaw ((mkMessage (some (t, s))).1.header ++ utf8Str s)).raw.author =
        (mkMessage (some (t, s))).1.raw.author ∧
      (fromRaw ((mkMessage (some (t, s))).1.header ++ utf8Str s)).raw.typeB =
        (mkMessage (some (t, s))).1.raw.typeB ∧
      (fromRaw ((mkMessage (some (t, s))).1.header ++ utf8Str s)).raw.size =
        (mkMessage (some (t, s))).1.raw.size ∧
      (fromRaw ((mkMessage (some (t, s))).1.header ++ utf8Str s)).raw.hash =
        (mkMessage (some (t, s))).1.raw.hash ∧
      (fromRaw ((mkMessage (some (t, s))).1.header ++ utf8Str s)).raw.signature =
        (mkMessage (some (t, s))).1.raw.signature ∧
      (fromRaw ((mkMessage (some (t, s))).1.header ++ utf8Str s)).raw.data =
        (mkMessage (some (t, s))).1.raw.data) := by
  obtain ⟨c, hc⟩ := Option.isSome_iff_exists.mp hreg
  have h0 : alookup "" typesList = none := by decide
  have ht : t ≠ "" := by
    intro h
    rw [h, h0] at hc
    exact Option.noConfusion hc
  have hmk : (mkMessage (some (t, s))).1 =
      { raw := { magic := MAGIC_BYTES_B, version := VERSION_B,
                 parent := List.replicate 32 0, author := List.replicate 32 0,
                 typeB := be4 c, size := be4 (utf8Str s).length,
                 hash := sha256 (utf8Str s), signature := List.replicate 64 0,
                 data := some (utf8Str s) },
        frozen := false, atType := some t } := by
    have hstep1 : newMessage.setType t =
        .ok ({ newMessage with
               atType := some t,
               raw := { newMessage.raw with typeB := be4 c } }, []) := by
      simp [Message.setType, hc, newMessage, writeBytes_be4]
    simp only [mkMessage, if_pos (And.intro hne ht), hstep1]
    simp [Message.setData, dataBytes, hashInputBytes, newMessage, writeBytes_be4]
  rw [hmk]
  have hfr := fromRaw_append
    { raw := { magic := MAGIC_BYTES_B, version := VERSION_B,
               parent := List.replicate 32 0, author := List.replicate 32 0,
               typeB := be4 c, size := be4 (utf8Str s).length,
               hash := sha256 (utf8Str s), signature := List.replicate 64 0,
               data := some (utf8Str s) },
      frozen := false, atType := some t } (utf8Str s)
    (by simp [MAGIC_BYTES_B]) (by simp [VERSION_B]) (by simp) (by simp)
    (by simp [be4_length]) (by simp [be4_length]) (by simp [sha256_length]) (by simp)
  rw [hfr]
  refine ⟨rfl, rfl, rfl, rfl, rfl, rfl, rfl, ?_, rfl, rfl⟩
  simp [utf8RoundTrip_str]

theorem claim1_roundtrip_witness :
    (alookup "Ping" typesList).isSome = true ∧ "hi" ≠ "" ∧
    (utf8Str "hi").length ≤ MAX_MESSAGE_SIZE ∧
    (mkMessage (some ("Ping", "hi"))).1.asRaw =
      some ((mkMessage (some ("Ping", "hi"))).1.header ++ utf8Str "hi") ∧
    (fromRaw ((mkMessage (some ("Ping", "hi"))).1.header ++ utf8Str "hi")).raw.hash =
      (mkMessage (some ("Ping", "hi"))).1.raw.hash ∧
    (fromRaw ((mkMessage (some ("Ping", "hi"))).1.header ++ utf8Str "hi")).raw.data =
      (mkMessage (some ("Ping", "hi"))).1.raw.data :=
  ⟨by decide, by decide, by decide,
   (claim1_roundtrip "Ping" "hi" (by decide) (by decide) (by decide)).1,
   (claim1_roundtrip "Ping" "hi" (by decide) (by decide) (by decide)).2.2.2.2.2.2.2.1,
   (claim1_roundtrip "Ping" "hi" (by decide) (by decide) (by decide)).2.2.2.2.2.2.2.2.2⟩

/-! ## Claim C2 — decoding never rejects short or inconsistent buffers -/

/-- C2 (the code at the claimed failing inputs): `fromRaw` performs *no*
length check (the guard is commented out) and no consistency check of the
declared payload length.  An 8-byte buffer — far shorter than the 176-byte
header — yields a `Message` with clamped header slices instead of a
rejection, and a buffer whose wire `size` field declares 99 while carrying
a 2-byte payload yields a `Message` whose `size` has silently been
recomputed to 2. -/
theorem claim2_no_malformed_rejection :
    (fromRaw [0, 1, 2, 3, 4, 5, 6, 7]).raw.magic = [0, 1, 2, 3] ∧
    (fromRaw [0, 1, 2, 3, 4, 5, 6, 7]).raw.parent = [] ∧
    (fromRaw [0, 1, 2, 3, 4, 5, 6, 7]).raw.data = some [] ∧
    (fromRaw (List.replicate 76 0 ++ [0, 0, 0, 99] ++ List.replicate 96 0 ++
        utf8Str "hi")).raw.size = be4 2 ∧
    (fromRaw (List.replicate 76 0 ++ [0, 0, 0, 99] ++ List.replicate 96 0 ++
        utf8Str "hi")).raw.data = some (utf8Str "hi") := by
  decide

/-! ## Claim C3 — verify: tamper detection before signature checking -/

/-- C3: when the stored `payloadHash` differs from the recomputed digest,
`verify` fails with the tamper outcome (returns `false`) *without invoking
the verifier capability*; when the digest matches but the verifier rejects,
`verify` fails with the distinct invalid-signature outcome (it throws
`'Did not verify.'`). -/
theorem claim3_verify_outcomes (m : Message) (d : List Nat)
    (verifier : List Nat → List Nat → List Nat → Bool)
    (hd : m.raw.data = some d) :
    (m.raw.hash ≠ sha256 d →
      m.verify verifier = some (VerifyResult.tamperedFalse, false)) ∧
    (m.raw.hash = sha256 d →
      verifier m.raw.author (sha256 d) m.raw.signature = false →
      m.verify verifier = some (VerifyResult.sigException, true)) ∧
    VerifyResult.tamperedFalse ≠ VerifyResult.sigException := by
  refine ⟨?_, ?_, by decide⟩
  · intro hne
    simp [Message.verify, hd, hne]
  · intro heq hrej
    simp [Message.verify, hd, heq, hrej]

/-- A message whose stored hash was corrupted after assigning payload
`"hi"`. -/
def tamperedHi : Message :=
  { newMessage.setData (.str "hi") with
    raw := { (newMessage.setData (.str "hi")).raw with hash := List.replicate 32 0 } }

theorem claim3_verify_outcomes_witness :
    tamperedHi.raw.data = some (utf8Str "hi") ∧
    ((tamperedHi.raw.hash ≠ sha256 (utf8Str "hi") →
        tamperedHi.verify (fun _ _ _ => false) = some (VerifyResult.tamperedFalse, false)) ∧
      (tamperedHi.raw.hash = sha256 (utf8Str "hi") →
        (fun (_ _ _ : List Nat) => false) tamperedHi.raw.author (sha256 (utf8Str "hi"))
            tamperedHi.raw.signature = false →
        tamperedHi.verify (fun _ _ _ => false) = some (VerifyResult.sigException, true)) ∧
      VerifyResult.tamperedFalse ≠ VerifyResult.sigException) :=
  ⟨by decide, claim3_verify_outcomes tamperedHi (utf8Str "hi") (fun _ _ _ => false) (by decide)⟩

/-! ## Claim C4 — freeze-after-sign is shallow -/

/-- A `Ping`/`"hi"` message signed with a deterministic test signer. -/
def signedPing : Message :=
  ((mkMessage (some ("Ping", "hi"))).1.sign
    { pubkey := List.replicate 32 7, sign := fun h => h ++ h }).getD newMessage

/-- C4 (the code at the failing input): after `sign()` the instance is
frozen (`Object.freeze(this)`), and assigning `type` does throw — but the
`data` setter mutates only the *nested* `raw` object, which a shallow
freeze does not protect: assigning `data` on the signed message succeeds,
replaces the payload, and changes the encoded bytes. -/
theorem claim4_freeze_shallow :
    signedPing.frozen = true ∧
    signedPing.setType "Pong" = .error [] ∧
    (signedPing.setData (.str "evil")).raw.data = some (utf8Str "evil") ∧
    (signedPing.setData (.str "evil")).asRaw ≠ signedPing.asRaw := by
  refine ⟨by decide, ?_, by decide, by decide⟩
  have hf : signedPing.frozen = true := by decide
  simp [Message.setType, hf]
  decide

/-! ## Claim C5 — registry fallback in both directions -/

/-- C5: constructing with a type name outside the closed registry resolves
to the generic type code and raises the warning signal — and never an error
(the setter succeeds on any unfrozen instance); decoding any stored type
code not bound in the registry yields the generic type label. -/
theorem claim5_registry_fallback :
    (∀ name : String, alookup name typesList = none →
      newMessage.setType name =
        .ok ({ newMessage with
               atType := some name,
               raw := { newMessage.raw with typeB := be4 GENERIC_MESSAGE_TYPE } },
             ["Unknown message type: " ++ name])) ∧
    (∀ m : Message, beNat m.raw.typeB ∉ typesList.map Prod.snd →
      m.typeLabel = "GenericMessage") := by
  constructor
  · intro name hnone
    simp [Message.setType, hnone, newMessage, writeBytes_be4]
  · intro m h
    unfold Message.typeLabel typeCodeLabel
    repeat rw [if_neg (fun e => absurd (by decide) (e ▸ h))]

/-- A message whose stored type code (9999) is bound to no registry name. -/
def unknownCodeMsg : Message :=
  { newMessage with raw := { newMessage.raw with typeB := [0, 0, 39, 15] } }

theorem claim5_registry_fallback_witness :
    (alookup "Bogus" typesList = none ∧
      newMessage.setType "Bogus" =
        .ok ({ newMessage with
               atType := some "Bogus",
               raw := { newMessage.raw with typeB := be4 GENERIC_MESSAGE_TYPE } },
             ["Unknown message type: " ++ "Bogus"])) ∧
    (beNat unknownCodeMsg.raw.typeB ∉ typesList.map Prod.snd ∧
      unknownCodeMsg.typeLabel = "GenericMessage") :=
  ⟨⟨by decide, claim5_registry_fallback.1 "Bogus" (by decide)⟩,
   ⟨by decide, claim5_registry_fallback.2 unknownCodeMsg (by decide)⟩⟩

/-! ## Claim C8 — payload length and digest invariant -/

/-- C8 (the code at the failing input): assigning the non-UTF-8 binary
buffer `[0xff]` as payload stores the correct 4-byte length, but the stored
digest is the SHA-256 of `value.toString('utf8')` — the UTF-8 round trip
`[0xef, 0xbf, 0xbd]` — which differs from the SHA-256 of the payload bytes
`[0xff]`.  Consequently `verify()` (which hashes the raw payload bytes)
immediately reports the freshly assigned message as tampered. -/
theorem claim8_digest_of_binary_payload :
    (newMessage.setData (.buf [0xFF])).raw.data = some [0xFF] ∧
    (newMessage.setData (.buf [0xFF])).raw.size = be4 1 ∧
    (newMessage.setData (.buf [0xFF])).raw.hash = sha256 [0xEF, 0xBF, 0xBD] ∧
    (newMessage.setData (.buf [0xFF])).raw.hash ≠ sha256 [0xFF] ∧
    (newMessage.setData (.buf [0xFF])).verify (fun _ _ _ => true) =
      some (VerifyResult.tamperedFalse, false) := by
  decide

/-! ## Claim C10 — decoding overwrites the wire hash and size fields -/

/-- C10 (counterexample): for the 177-byte buffer of 176 zero bytes
followed by the payload byte `0xff`, the decoded message's stored hash is
*not* the SHA-256 digest of the payload bytes — the `data` setter hashed
the lossy UTF-8 round trip instead. -/
theorem claim10_overwrite_cex :
    176 ≤ (List.replicate 176 0 ++ [0xFF] : List Nat).length ∧
    (fromRaw (List.replicate 176 0 ++ [0xFF])).raw.data = some [0xFF] ∧
    (fromRaw (List.replicate 176 0 ++ [0xFF])).raw.hash ≠ sha256 [0xFF] := by
  decide

/-- C10 (amended): for every buffer of length at least 176, decoding stores
a payload-hash equal to the freshly recomputed SHA-256 of the *UTF-8 round
trip* of the payload bytes (equal to the digest of the payload bytes
exactly when they survive the lossy string conversion), and a
payload-length equal to the actual byte count — regardless of the hash and
size bytes present on the wire, so a wire digest mismatch is no longer
observable after decode. -/
theorem claim10_overwrite (input : List Nat) (h : 176 ≤ input.length) :
    (fromRaw input).raw.hash = sha256 (utf8RoundTrip (input.drop 176)) ∧
    (fromRaw input).raw.size = be4 (input.drop 176).length ∧
    (fromRaw input).raw.data = some (input.drop 176) := by
  have hlen : (bslice input 76 80).length = 4 :=
    bslice_length input 76 80 (by omega) (by omega)
  unfold fromRaw
  simp only [Message.setData, dataBytes, hashInputBytes]
  exact ⟨trivial, writeBytes_be4 _ _ hlen, trivial⟩

/-! ## Claim C6 — commit clock vs. event emission -/

/-- A clean commit (mirror equal to current data): the clock increments,
the regenerated change set is empty, and nothing is emitted. -/
theorem commit_clean (s : StateT) (idv : String) (pre : List Nat)
    (hobs : s.hasObserver = true)
    (hwf : JWF s.entityData)
    (hclean : s.baseline = s.entityData)
    (hid : s.id = some idv)
    (hpre : serializeVal s.atData = some pre) :
    s.commit = some ({ s with
      clock := s.clock + 1, parent := some idv, preimage := some pre,
      changes := some [], baseline := s.entityData, atId := some idv }, []) := by
  have hdiff : jsonDiff s.baseline s.entityData "" = [] := by
    rw [hclean]
    exact jsonDiff_refl _ hwf ""
  simp [StateT.commit, hid, hpre, hobs, hdiff]

/-- C6: for every observed `State` with no mutation applied since its last
commit (mirror equal to current, well-formed data, serializable), calling
`commit()` twice increments the clock by exactly one on each call, and the
second call emits no change signal — no `'changes'`, `'state'` or
`'message'` event. -/
theorem claim6_commit_twice (s : StateT) (idv : String) (pre : List Nat)
    (hobs : s.hasObserver = true)
    (hwf : JWF s.entityData)
    (hclean : s.baseline = s.entityData)
    (hid : s.id = some idv)
    (hpre : serializeVal s.atData = some pre) :
    ∃ s1 e1 s2, s.commit = some (s1, e1) ∧ s1.clock = s.clock + 1 ∧
      s1.commit = some (s2, []) ∧ s2.clock = s.clock + 2 := by
  have h1 := commit_clean s idv pre hobs hwf hclean hid hpre
  have h2 := commit_clean { s with
    clock := s.clock + 1, parent := some idv, preimage := some pre,
    changes := some [], baseline := s.entityData, atId := some idv } idv pre
    hobs hwf rfl hid hpre
  exact ⟨_, _, _, h1, rfl, h2, rfl⟩

/-- The Scenario-A style state `new State({count: 1})`. -/
def counterState : StateT := newState (.jobj [("count", JVal.jnum 1)])

theorem claim6_commit_twice_witness :
    counterState.hasObserver = true ∧
    JWF counterState.entityData ∧
    counterState.baseline = counterState.entityData ∧
    counterState.id =
      some "6aea6dfe6561984cdc5c54ead84d47d2cf29e48253ae282aef237404adad4661" ∧
    serializeVal counterState.atData = some (utf8Str "\x7b\"count\":1\x7d") ∧
    (∃ s1 e1 s2, counterState.commit = some (s1, e1) ∧
      s1.clock = counterState.clock + 1 ∧
      s1.commit = some (s2, []) ∧ s2.clock = counterState.clock + 2) := by
  have hwf : JWF counterState.entityData := by
    have he : counterState.entityData = JVal.jobj [("count", JVal.jnum 1)] := rfl
    rw [he]
    refine JWF.jobj _ (by decide) ?_
    intro p hp
    rcases List.mem_singleton.mp hp with rfl
    exact JWF.jnum 1
  refine ⟨rfl, hwf, rfl, by decide, by decide, ?_⟩
  exact claim6_commit_twice counterState
    "6aea6dfe6561984cdc5c54ead84d47d2cf29e48253ae282aef237404adad4661"
    (utf8Str "\x7b\"count\":1\x7d") rfl hwf rfl (by decide) (by decide)

/-! ## Claim C7 — fork lineage -/

/-- C7 (counterexample): for the state `new State({})`, the fork succeeds
and the state has an identifier, but `fork().get('/parent')` does not
return it — the seed key is `'@parent'`, so the `'/parent'` lookup misses,
and the catch handler's own `pointer.get(…, '/')` lookup throws: the `get`
is not an `ok` result at all. -/
theorem claim7_lineage_cex :
    (newState (.jobj [])).id =
      some "44136fa355b3678a1146ad16f7e8649e94fb4fc21fe77e8310c060f61caaff8a" ∧
    ((newState (.jobj [])).fork.map fun child => (child.get "/parent").isOk) =
      some false := by
  decide

/-- C7 (amended: the seed key is `'@parent'`, so the lineage law holds at
pointer `'/@parent'`): for every state constructed from an object carrying
no reserved `'@'`-prefixed fields, `fork()` succeeds and
`fork().get('/@parent')` returns exactly the identifier the state had
before forking. -/
theorem claim7_lineage (fields : List (String × JVal))
    (hkeys : ∀ k ∈ fields.map Prod.fst, k.data.head? ≠ some '@') :
    ∃ idv child, (newState (.jobj fields)).id = some idv ∧
      (newState (.jobj fields)).fork = some child ∧
      child.get "/@parent" = Except.ok (JVal.jstr idv) := by
  have hnotkey : ∀ tgt : String, tgt.data.head? = some '@' → ∀ kv ∈ fields, kv.1 ≠ tgt := by
    intro tgt htgt kv hkv he
    have := hkeys kv.1 (List.mem_map.mpr ⟨kv, hkv, rfl⟩)
    rw [he] at this
    exact this htgt
  have hT : alookup "@type" fields = none :=
    alookup_eq_none_of_forall _ _ (hnotkey "@type" (by decide))
  have hP : ∀ kv ∈ fields, kv.1 ≠ "@parent" := hnotkey "@parent" (by decide)
  set idv := hexOfBytes (sha256 (utf8Str (jsonStringify (.jobj fields)))) with hidv
  have hid : (newState (.jobj fields)).id = some idv := by
    simp [newState, StateT.id, StateT.fingerprint, hT, jvTruthy, serializeVal, jdepth,
      serializeValF]
  have hfork : (newState (.jobj fields)).fork =
      some (newState (.jobj (objAssign [("@parent", JVal.jstr idv)] fields))) := by
    have had : (newState (.jobj fields)).atData = .jobj fields := by
      simp [newState, jvTruthy]
    simp [StateT.fork, hid, had]
  have hPA : alookup "@parent" (objAssign [("@parent", JVal.jstr idv)] fields) =
      some (.jstr idv) := by
    rw [objAssign_alookup_preserved "@parent" fields _ hP]
    rfl
  have hTA : alookup "@type" (objAssign [("@parent", JVal.jstr idv)] fields) = none := by
    rw [objAssign_alookup_preserved "@type" fields _ (hnotkey "@type" (by decide))]
    rfl
  have hced : (newState (.jobj (objAssign [("@parent", JVal.jstr idv)] fields))).entityData =
      .jobj (objAssign [("@parent", JVal.jstr idv)] fields) := by
    simp [newState, hTA, jvTruthy]
  have hparse : ptrParse "/@parent" = some ["@parent"] := by decide
  refine ⟨idv, _, hid, hfork, ?_⟩
  simp [StateT.get, hparse, hced, pget, hPA]

theorem claim7_lineage_witness :
    (∀ k ∈ ([("a", JVal.jnum 1)] : List (String × JVal)).map Prod.fst,
      k.data.head? ≠ some '@') ∧
    (∃ idv child, (newState (.jobj [("a", JVal.jnum 1)])).id = some idv ∧
      (newState (.jobj [("a", JVal.jnum 1)])).fork = some child ∧
      child.get "/@parent" = Except.ok (JVal.jstr idv)) :=
  ⟨by decide, claim7_lineage [("a", JVal.jnum 1)] (by decide)⟩

/-! ## Claim C9 — `'@'`-prefixed fields and canonical serialization -/

/-- C9 (the code at the failing input): the canonical serialization does
*not* exclude `'@'`-prefixed fields — the source's "strip special fields"
loop builds a stripped copy that is never returned.  Two objects differing
only in the `'@x'` field serialize to different bytes and fingerprint
differently. -/
theorem claim9_reserved_fields_not_stripped :
    serializeVal (.jobj [("@x", .jnum 1), ("a", .jnum 2)]) =
      some (utf8Str "\x7b\"@x\":1,\"a\":2\x7d") ∧
    serializeVal (.jobj [("a", .jnum 2)]) = some (utf8Str "\x7b\"a\":2\x7d") ∧
    (newState (.jobj [("@x", .jnum 1), ("a", .jnum 2)])).fingerprint ≠
      (newState (.jobj [("a", .jnum 2)])).fingerprint := by
  decide

theorem claim10_overwrite_witness :
    176 ≤ (List.replicate 176 1 ++ [0xFF, 0x41] : List Nat).length ∧
    ((fromRaw (List.replicate 176 1 ++ [0xFF, 0x41])).raw.hash =
        sha256 (utf8RoundTrip ((List.replicate 176 1 ++ [0xFF, 0x41]).drop 176)) ∧
      (fromRaw (List.replicate 176 1 ++ [0xFF, 0x41])).raw.size =
        be4 ((List.replicate 176 1 ++ [0xFF, 0x41]).drop 176).length ∧
      (fromRaw (List.replicate 176 1 ++ [0xFF, 0x41])).raw.data =
        some ((List.replicate 176 1 ++ [0xFF, 0x41]).drop 176)) :=
  ⟨by decide, claim10_overwrite (List.replicate 176 1 ++ [0xFF, 0x41]) (by decide)⟩

end Fabric
